import Mathlib

/-!
Verification development for the EPICS instrument-servers configuration engine.

Shallow embedding of the configuration lifecycle and synchronization core:
the git version-control sync layer (`ConfigVersionControl/git_version_control.py`),
the configuration file manager (`BlockServer/fileIO/file_manager.py`),
the file-watch event handler (`BlockServer/fileIO/config_file_event_handler.py`),
the block container (`BlockServer/config/containers.py`) and the write-queue
worker of `BlockServer/block_server.py`.

Python strings are Lean `String`; Python `in` / `startswith` on strings are
embedded through `List.isInfixOf` / `List.isPrefixOf` on the character data.
Fallible Python code is embedded as `Except`; filesystem and git side effects
are reified as explicit effect lists; background loops are embedded as step
functions folded over the sequence of external outcomes they observe.
-/

namespace InstServers

/-- Python `s.lower()`.  (`String.toLower` itself does not reduce in the
kernel, so the character data is mapped directly.) -/
def lowerStr (s : String) : String := ⟨s.data.map Char.toLower⟩

/-- Infix test on character lists (executable). -/
def infix_of (pat : List Char) : List Char → Bool
  | [] => pat.isEmpty
  | a :: rest => pat.isPrefixOf (a :: rest) || infix_of pat rest

/-- Python `sub in s` (substring containment). -/
def contains_sub (s sub : String) : Bool :=
  infix_of sub.data s.data

/-- Python `s.startswith(pre)`. -/
def startswith (s pre : String) : Bool :=
  pre.data.isPrefixOf s.data

/-! ## `ConfigVersionControl/git_version_control.py` -/

/-- Constant `SYSTEM_TEST_PREFIX = "rcptt_"` (the reserved test-artifact marker). -/
def systemTestMarker : String := "rcptt_"

/-- Constant `PUSH_BASE_INTERVAL = 10`. -/
def pushBaseInterval : Nat := 10

/-- Constant `PUSH_RETRY_INTERVAL = 30`. -/
def pushRetryInterval : Nat := 30

/-- Predicate `GitVersionControl._should_ignore`: `SYSTEM_TEST_PREFIX in file_path`. -/
def should_ignore (file_path : String) : Bool :=
  contains_sub file_path systemTestMarker

/-- Check `GitVersionControl.branch_allowed`.  `socket.gethostname()` is passed in
explicitly as `hostname`. -/
def branch_allowed (hostname : String) (branch_name : String) : Bool :=
  let b := lowerStr branch_name
  if contains_sub b "master" then
    false
  else if startswith b "nd" && !(b == lowerStr hostname) then
    false
  else
    true

/-- Errors of the version-control layer (`vc_exceptions`). -/
inductive VCError
  | notUnderVersionControl
  | gitPullFailed
  | notUnderAllowedBranch
deriving DecidableEq, Repr

/-- The branch check performed at the top of `GitVersionControl.setup`:
raise `NotUnderAllowedBranch` when the active branch is not allowed. -/
def setup_branch_check (hostname branch : String) : Except VCError Unit :=
  if branch_allowed hostname branch then Except.ok () else Except.error VCError.notUnderAllowedBranch

/-- Reified git / filesystem effects of `GitVersionControl.add` / `remove`. -/
inductive GitOp
  | indexAdd (path : String)
  | indexRemove (paths : List String) (working_tree : Bool)
  | fsRemoveTree (path : String)
  | fsRemoveFile (path : String)
deriving DecidableEq, Repr

/-- Operation `GitVersionControl.add`: return early for ignored paths, otherwise add the
path to the repository index (the `WindowsError` retry performs the same
index add after fixing permissions, so its effect on the index is identical). -/
def add (path : String) : List GitOp :=
  if should_ignore path then [] else [GitOp.indexAdd path]

/-- Operation `GitVersionControl.remove`.  Filesystem facts are passed in explicitly:
`path_exists` is `os.path.exists(path)`, `is_dir` is `os.path.isdir(path)`,
and `walk_listing` is the list of absolute paths collected by the
`os.walk` loop when the path is a directory. -/
def remove (path : String) (path_exists is_dir : Bool)
    (walk_listing : List String) : List GitOp :=
  if should_ignore path && path_exists then
    if is_dir then [GitOp.fsRemoveTree path] else [GitOp.fsRemoveFile path]
  else
    let delete_list := if is_dir then walk_listing else [path]
    [GitOp.indexRemove delete_list true]

/-- Does a list of effects touch the repository index? -/
def touches_index : List GitOp → Bool
  | [] => false
  | GitOp.indexAdd _ :: _ => true
  | GitOp.indexRemove _ _ :: _ => true
  | _ :: rest => touches_index rest

/-! ### The background push loop (`GitVersionControl._push`) -/

/-- The loop-local and shared state of `_push`: the shared `_push_required`
flag, the loop-local `push_interval` and `first_failure` variables. -/
structure PushState where
  push_required : Bool
  push_interval : Nat
  first_failure : Bool
deriving DecidableEq, Repr

/-- The state at the top of the `while 1` loop in `_push`. -/
def push_init (required : Bool) : PushState :=
  { push_required := required, push_interval := pushBaseInterval, first_failure := true }

/-- One iteration of the `while 1` loop body of `_push`.  `push_ok` is whether
`self.remote.push()` succeeds on this iteration (ignored when no push is
required).  Returns the new state, whether a log line was emitted, and the
duration of the unconditional `sleep(push_interval)` at the end of the body. -/
def push_iter (s : PushState) (push_ok : Bool) : PushState × Bool × Nat :=
  if s.push_required then
    if push_ok then
      let s2 : PushState :=
        { push_required := false, push_interval := pushBaseInterval, first_failure := true }
      (s2, false, s2.push_interval)
    else
      let s2 : PushState :=
        { push_required := s.push_required, push_interval := pushRetryInterval,
          first_failure := false }
      (s2, s.first_failure, s2.push_interval)
  else
    (s, false, s.push_interval)

/-- Folding `push_iter` over a sequence of push outcomes: the final state, the
total number of log lines emitted, and the list of sleep durations. -/
def push_run (s : PushState) : List Bool → PushState × Nat × List Nat
  | [] => (s, 0, [])
  | ok :: rest =>
    let step := push_iter s ok
    let tail := push_run step.1 rest
    (tail.1, (if step.2.1 then 1 else 0) + tail.2.1, step.2.2 :: tail.2.2)

/-! ## `BlockServer/config/containers.py` and `constants.py` -/

/-- Constant `GRP_NONE = "NONE"` (`BlockServer/config/constants.py`). -/
def GRP_NONE : String := "NONE"

/-- Constant `PVPREFIX_MACRO` (`BlockServer/core/macros.py`, outside `src/`): the
instrument prefix macro string.  Its concrete value is irrelevant to every
claim below. -/
def pvMacroText : String := "$(MYPVPREFIX)"

/-- Container `Block` (`containers.py`).  The Python `local` attribute is named
`is_local` (`local` is a Lean keyword); the float-valued run-control limits
and archive settings are carried as integers — no claim computes with them. -/
structure Block where
  name : String
  pv : String
  is_local : Bool := true
  visible : Bool := true
  subconfig : Option String := none
  rc_lowlimit : Option Int := none
  rc_highlimit : Option Int := none
  rc_enabled : Bool := false
  log_periodic : Bool := false
  log_rate : Int := 5
  log_deadband : Int := 0
deriving DecidableEq, Repr

/-- Method `Block._get_pv`: prepend the prefix macro for a local block whose address
does not already start with it. -/
def get_pv (b : Block) : String :=
  if b.is_local && !(startswith b.pv pvMacroText) then pvMacroText ++ b.pv else b.pv

/-- The fields of the dictionary built by `Block.to_dict`. -/
structure BlockDict where
  name : String
  pv : String
  is_local : Bool
  visible : Bool
  subconfig : Option String
  runcontrol : Bool
  lowlimit : Option Int
  highlimit : Option Int
  log_periodic : Bool
  log_rate : Int
  log_deadband : Int
deriving DecidableEq, Repr

/-- Method `Block.to_dict`. -/
def to_dict (b : Block) : BlockDict :=
  { name := b.name, pv := get_pv b, is_local := b.is_local, visible := b.visible,
    subconfig := b.subconfig, runcontrol := b.rc_enabled, lowlimit := b.rc_lowlimit,
    highlimit := b.rc_highlimit, log_periodic := b.log_periodic, log_rate := b.log_rate,
    log_deadband := b.log_deadband }

/-- Container `Group` (`containers.py`). -/
structure Group where
  name : String
  blocks : List String := []
  subconfig : Option String := none
deriving DecidableEq, Repr

/-- Container `IOC` (`containers.py`); macro/pv/pvset payloads are carried as
string-keyed association lists of string values. -/
structure IOC where
  name : String
  autostart : Bool := true
  restart : Bool := true
  subconfig : Option String := none
  macros : List (String × String) := []
  pvs : List (String × String) := []
  pvsets : List (String × String) := []
  simlevel : String := "None"
deriving DecidableEq, Repr

/-- Container `MetaData` (`containers.py`). -/
structure MetaData where
  name : String
  pv : String := ""
  description : String := ""
  synoptic : String := ""
  history : List String := []
deriving DecidableEq, Repr

/-! ## Python `OrderedDict`, embedded as an association list

Assignment `d[k] = v` updates the value in place when the key is present and
appends the pair otherwise. -/

/-- One `OrderedDict` assignment `d[k] = v`. -/
def od_set {α : Type} (d : List (String × α)) (k : String) (v : α) : List (String × α) :=
  if d.any (fun p => p.1 = k) then
    d.map (fun p => if p.1 = k then (k, v) else p)
  else
    d ++ [(k, v)]

/-- A sequence of `OrderedDict` assignments. -/
def od_set_all {α : Type} (d : List (String × α)) (es : List (String × α)) :
    List (String × α) :=
  es.foldl (fun acc e => od_set acc e.1 e.2) d

/-- Lookup in an `OrderedDict`. -/
def od_find {α : Type} : List (String × α) → String → Option α
  | [], _ => none
  | p :: rest, k => if p.1 = k then some p.2 else od_find rest k

/-! ## `BlockServer/fileIO/file_manager.py` — `ConfigurationFileManager.load_config`

The XML converters (`BlockServer/config/xml_converter.py`) are not part of the
sources; they are modelled from the spec below, with the dictionary-threading
structure dictated by the `load_config` call sites. -/

/-- Record `Configuration` as assembled by `load_config` (the fields assigned at the
end of `ConfigurationFileManager.load_config`). -/
structure Configuration where
  blocks : List (String × Block)
  groups : List (String × Group)
  iocs : List (String × IOC)
  subconfigs : List (String × String)
  meta : MetaData
deriving DecidableEq, Repr

/-- The filesystem contents `load_config` reads, pre-parsed: whether the
configuration directory exists and, for each of the five fixed filenames,
`none` when the file is absent or `some` parsed entries when present.
Parsing is assumed to succeed (claims about malformed XML are out of scope). -/
structure ConfigDirContents where
  dir_present : Bool
  blocks_file : Option (List Block × List Group)
  groups_file : Option (List Group)
  iocs_file : Option (List IOC)
  subconfigs_file : Option (List String)
  meta_file : Option MetaData
deriving DecidableEq, Repr

/-- Modelled from the spec: `ConfigurationXmlConverter.blocks_from_xml` parses
the blocks file and inserts each block into the blocks dictionary under its
lowercased name; the group membership recorded alongside a block inserts
groups under their lowercased names (the converter receives both
dictionaries). -/
def blocks_from_xml (blocks : List (String × Block)) (groups : List (String × Group))
    (parsed : List Block × List Group) :
    List (String × Block) × List (String × Group) :=
  (od_set_all blocks (parsed.1.map (fun b => (lowerStr b.name, b))),
   od_set_all groups (parsed.2.map (fun g => (lowerStr g.name, g))))

/-- Modelled from the spec: `ConfigurationXmlConverter.groups_from_xml` inserts
each parsed group into the groups dictionary under its lowercased name. -/
def groups_from_xml (groups : List (String × Group)) (parsed : List Group) :
    List (String × Group) :=
  od_set_all groups (parsed.map (fun g => (lowerStr g.name, g)))

/-- Modelled from the spec: `ConfigurationXmlConverter.ioc_from_xml` inserts
each parsed IOC into the IOC dictionary under its lowercased name. -/
def ioc_from_xml (iocs : List (String × IOC)) (parsed : List IOC) :
    List (String × IOC) :=
  od_set_all iocs (parsed.map (fun i => (lowerStr i.name, i)))

/-- Modelled from the spec: `ConfigurationXmlConverter.subconfigs_from_xml`
inserts each parsed component reference under its lowercased name. -/
def subconfigs_from_xml (subconfigs : List (String × String)) (parsed : List String) :
    List (String × String) :=
  od_set_all subconfigs (parsed.map (fun n => (lowerStr n, n)))

/-- Errors raised by `ConfigurationFileManager.load_config`:
`Exception("Configuration could not be found: " + config_name)`. -/
inductive ConfigError
  | notFound (config_name : String)
deriving DecidableEq, Repr

/-- Operation `ConfigurationFileManager.load_config`.  Raises when the configuration
directory is absent; otherwise builds the configuration from whichever of the
five files are present, starting from empty dictionaries with the `NONE`
group pre-inserted and a default `MetaData(config_name)`. -/
def load_config (config_name : String) (fs : ConfigDirContents) :
    Except ConfigError Configuration :=
  if !fs.dir_present then
    Except.error (ConfigError.notFound config_name)
  else
    let blocks0 : List (String × Block) := []
    let groups0 : List (String × Group) :=
      od_set [] (lowerStr GRP_NONE) { name := GRP_NONE }
    let bg :=
      match fs.blocks_file with
      | none => (blocks0, groups0)
      | some parsed => blocks_from_xml blocks0 groups0 parsed
    let groups2 :=
      match fs.groups_file with
      | none => bg.2
      | some parsed => groups_from_xml bg.2 parsed
    let iocs :=
      match fs.iocs_file with
      | none => []
      | some parsed => ioc_from_xml [] parsed
    let subconfigs :=
      match fs.subconfigs_file with
      | none => []
      | some parsed => subconfigs_from_xml [] parsed
    let meta :=
      match fs.meta_file with
      | none => ({ name := config_name } : MetaData)
      | some m => m
    Except.ok
      { blocks := bg.1, groups := groups2, iocs := iocs, subconfigs := subconfigs,
        meta := meta }

/-- Operation `ConfigurationFileManager.start_version_control`: any error raised while
setting up version control is caught and logged, and `None` is returned, so
the service continues without version control. -/
def start_version_control {α : Type} (attempt : Except VCError α) : Option α :=
  match attempt with
  | Except.ok vc => some vc
  | Except.error _ => none

/-! ## `BlockServer/fileIO/config_file_event_handler.py` -/

/-- Separator `os.sep` on the Windows deployment the code targets. -/
def osSep : String := "\\"

/-- Python `s.replace(old, '')` on character data: delete every occurrence of
`old`, scanning left to right, non-overlapping.  The fuel argument (the input
length) keeps the recursion structural; each step consumes at least one
character so the fuel never runs out on the real call. -/
def remove_occs (pat : List Char) : Nat → List Char → List Char
  | 0, l => l
  | _ + 1, [] => []
  | fuel + 1, c :: rest =>
    if pat.isPrefixOf (c :: rest) && !pat.isEmpty then
      remove_occs pat fuel (rest.drop (pat.length - 1))
    else
      c :: remove_occs pat fuel rest

/-- Python `string.split(s, sep)` for a one-character separator. -/
def split_chars (sep : Char) : List Char → List (List Char)
  | [] => [[]]
  | c :: rest =>
    match split_chars sep rest with
    | [] => [[c]]
    | g :: gs => if c = sep then [] :: g :: gs else (c :: g) :: gs

/-- Method `ConfigFileEventHandler._split_config_path`: delete every occurrence of
the watched root from the path (Python `string.replace`), strip one leading
separator (`rel_path[1:]`), and split on the separator. -/
def split_config_path (watched_root : String) (path : String) : List String :=
  let rel := remove_occs watched_root.data path.data.length path.data
  let rel2 := if osSep.data.isPrefixOf rel then rel.drop 1 else rel
  (split_chars '\\' rel2).map (fun cs => String.mk cs)

/-- Method `ConfigFileEventHandler._check_file_at_root`. -/
def check_file_at_root (watched_root : String) (path : String) : Bool :=
  decide ((split_config_path watched_root path).length < 2)

/-- Method `ConfigFileEventHandler._get_name`: the first component of the split
path (`folders[0]`; `splitOn` always returns a non-empty list). -/
def get_name (watched_root : String) (path : String) : String :=
  (split_config_path watched_root path).headD ""

/-- Error `NotConfigFileException` from `schema_checker`. -/
inductive WatcherError
  | notConfigFile (msg : String)
deriving DecidableEq, Repr

/-- Method `ConfigFileEventHandler._check_valid`: reject a path at the watched root
with `NotConfigFileException`; otherwise attempt the catalog manager's
`load_config` (its outcome is passed in as `load_result`, the manager lives
outside these sources), catching and logging any reload failure, in which
case `ic` remains `None`. -/
def check_valid (watched_root : String) (path : String)
    (load_result : Except String Configuration) :
    Except WatcherError (Option Configuration) :=
  if check_file_at_root watched_root path then
    Except.error (WatcherError.notConfigFile "File in root directory")
  else
    match load_result with
    | Except.ok ic => Except.ok (some ic)
    | Except.error _ => Except.ok none

/-- Modelled from the spec: the watcher's event delivery validates the path
with `_check_valid` and updates the catalog entry only when a validated
configuration was produced; on rejection or reload failure the catalog is
left as-is. -/
def handle_fs_event (watched_root : String) (path : String)
    (load_result : Except String Configuration)
    (catalog : List (String × Configuration)) : List (String × Configuration) :=
  match check_valid watched_root path load_result with
  | Except.error _ => catalog
  | Except.ok none => catalog
  | Except.ok (some ic) => od_set catalog (get_name watched_root path) ic

/-! ## `BlockServer/block_server.py` — the write queue and its worker

A queued item is `(the method to call, the argument tuple, the status label)`.
The embedding carries each task's label together with the outcome of calling
its body, and reifies the worker's observable actions (lock transitions,
status-string writes, task-body invocations) as an event trace. -/

/-- A write-queue task: status label plus the outcome of `cmd(*arg)`. -/
structure QueueTask where
  label : String
  body : Except String Unit
deriving Repr

/-- Observable actions of the write-queue worker. -/
inductive QueueEv
  | lock_acquire
  | set_status (s : String)
  | run_task (label : String)
  | lock_release
deriving DecidableEq, Repr

/-- Method `BlockServer.write` for a queued command (e.g. `LOAD_CONFIG`): under
`write_lock`, append the task to `write_queue`, then immediately acknowledge
with `"OK"` — no task body runs during the call. -/
def write_enqueue (queue : List QueueTask) (t : QueueTask) :
    List QueueTask × String :=
  (queue ++ [t], "OK")

/-- Worker `BlockServer.consume_write_queue`, run to quiescence on a queue snapshot.
Per task, all inside `with self.write_lock`: pop, `_status := label`,
`cmd(*arg)`, `_status := ""`.  There is no exception handler in the loop: a
raising body leaves `_status` at the task's label, releases the lock (the
`with` statement) and propagates the exception out of the worker, so the
remaining tasks are never popped.  Returns the event trace, the final value
of `_status`, and the escaped exception, if any. -/
def consume_write_queue (status : String) :
    List QueueTask → List QueueEv × String × Option String
  | [] => ([], status, none)
  | t :: rest =>
    match t.body with
    | Except.ok _ =>
      let tail := consume_write_queue "" rest
      (QueueEv.lock_acquire :: QueueEv.set_status t.label :: QueueEv.run_task t.label ::
        QueueEv.set_status "" :: QueueEv.lock_release :: tail.1, tail.2)
    | Except.error e =>
      ([QueueEv.lock_acquire, QueueEv.set_status t.label, QueueEv.run_task t.label,
        QueueEv.lock_release], t.label, some e)

/-- The trace block the worker emits for one successfully executed task. -/
def task_trace (t : QueueTask) : List QueueEv :=
  [QueueEv.lock_acquire, QueueEv.set_status t.label, QueueEv.run_task t.label,
   QueueEv.set_status "", QueueEv.lock_release]

/-- Concatenation of the per-task trace blocks of a task list. -/
def traces_of : List QueueTask → List QueueEv
  | [] => []
  | t :: rest => task_trace t ++ traces_of rest

/-- The labels of the task bodies actually invoked, in trace order. -/
def execs_of : List QueueEv → List String
  | [] => []
  | QueueEv.run_task l :: rest => l :: execs_of rest
  | _ :: rest => execs_of rest

/-- Walks a trace tracking the write-lock depth from `depth`, checking that
every task-body invocation happens with the lock held. -/
def all_runs_locked_from (depth : Nat) : List QueueEv → Bool
  | [] => true
  | QueueEv.lock_acquire :: rest => all_runs_locked_from (depth + 1) rest
  | QueueEv.lock_release :: rest => all_runs_locked_from (depth - 1) rest
  | QueueEv.run_task _ :: rest => decide (0 < depth) && all_runs_locked_from depth rest
  | QueueEv.set_status _ :: rest => all_runs_locked_from depth rest

/-- Is some task body invoked while the write lock is held? -/
def some_run_locked_from (depth : Nat) : List QueueEv → Bool
  | [] => false
  | QueueEv.lock_acquire :: rest => some_run_locked_from (depth + 1) rest
  | QueueEv.lock_release :: rest => some_run_locked_from (depth - 1) rest
  | QueueEv.run_task _ :: rest => decide (0 < depth) || some_run_locked_from depth rest
  | QueueEv.set_status _ :: rest => some_run_locked_from depth rest

/-- The task the `BlockServer` constructor enqueues before any client write:
`(self.initialise_configserver, (), "INITIALISING")`.  Its body catches its
own exceptions (`initialise_configserver` wraps the load in `try/except`). -/
def initial_task : QueueTask := { label := "INITIALISING", body := Except.ok () }

/-- The worker's run for a `BlockServer` process: `_status` starts as
`"INITIALISING"` (the constructor) and the initialisation task precedes the
client tasks in the queue. -/
def block_server_run (client_tasks : List QueueTask) :
    List QueueEv × String × Option String :=
  consume_write_queue "INITIALISING" (initial_task :: client_tasks)

/-- Method `BlockServer.load_config` (lines 465–478) as a task body: the entire body
is wrapped in `try/except Exception`, which logs the message.  `inner` is the
outcome of the work inside the `try` block.  Returns the outcome visible to
the worker loop together with the error messages logged. -/
def load_config_task (inner : Except String Unit) : Except String Unit × List String :=
  match inner with
  | Except.ok _ => (Except.ok (), [])
  | Except.error e => (Except.ok (), [e])

/-- Modelled from the spec: `ActiveConfigServerManager.load_config` (outside
these sources) replaces the active configuration wholesale on success and, on
failure, must leave the Active Configuration State unchanged (operations are
atomic with respect to it). -/
def active_load (state : Option Configuration)
    (result : Except String Configuration) : Option Configuration :=
  match result with
  | Except.ok c => some c
  | Except.error _ => state

/-! # Theorems -/

/-! ## String-helper lemmas -/

theorem infix_of_iff (pat : List Char) : ∀ l, infix_of pat l = true ↔ pat <:+: l := by
  intro l
  induction l with
  | nil => simp [infix_of, List.isEmpty_iff]
  | cons a rest ih =>
    simp [infix_of, ih, List.infix_cons_iff]

theorem contains_sub_iff (s sub : String) :
    contains_sub s sub = true ↔ sub.data <:+: s.data :=
  infix_of_iff sub.data s.data

theorem startswith_iff (s pre : String) :
    startswith s pre = true ↔ pre.data <+: s.data := by
  simp [startswith]

theorem startswith_append (pre s : String) :
    startswith (pre ++ s) pre = true := by
  rw [startswith_iff, String.data_append]
  exact List.prefix_append _ _

/-! ## C10 — block PV export -/

/-- C10: the PV address exported by `Block.to_dict` equals the raw address
when the block is non-local or the address already starts with the prefix
macro, equals the macro prepended to the raw address otherwise, and exporting
an already-exported address never double-prefixes (idempotence). -/
theorem C10_to_dict_pv (b : Block) :
    (b.is_local = false → (to_dict b).pv = b.pv) ∧
    (startswith b.pv pvMacroText = true → (to_dict b).pv = b.pv) ∧
    (b.is_local = true → startswith b.pv pvMacroText = false →
      (to_dict b).pv = pvMacroText ++ b.pv) ∧
    (to_dict { b with pv := (to_dict b).pv }).pv = (to_dict b).pv := by
  refine ⟨?_, ?_, ?_, ?_⟩
  · intro h; simp [to_dict, get_pv, h]
  · intro h; simp [to_dict, get_pv, h]
  · intro h1 h2; simp [to_dict, get_pv, h1, h2]
  · cases hl : b.is_local with
    | false => simp [to_dict, get_pv, hl]
    | true =>
      cases hs : startswith b.pv pvMacroText with
      | true => simp [to_dict, get_pv, hl, hs]
      | false => simp [to_dict, get_pv, hl, hs, startswith_append]

/-- Witness for C10 at a concrete local, not-yet-prefixed block. -/
theorem C10_to_dict_pv_witness :
    (({ name := "B1", pv := "IN:DEMO:X" } : Block).is_local = true ∧
      startswith "IN:DEMO:X" pvMacroText = false) ∧
    (to_dict { name := "B1", pv := "IN:DEMO:X" }).pv = pvMacroText ++ "IN:DEMO:X" :=
  ⟨⟨rfl, by decide⟩, (C10_to_dict_pv _).2.2.1 rfl (by decide)⟩

/-! ## C6 — branch-safety check -/

theorem branch_allowed_eq (hostname branch : String) :
    branch_allowed hostname branch =
      !(contains_sub (lowerStr branch) "master" ||
        (startswith (lowerStr branch) "nd" && !(lowerStr branch == lowerStr hostname))) := by
  cases h1 : contains_sub (lowerStr branch) "master" <;>
    cases h2 : startswith (lowerStr branch) "nd" <;>
      cases h3 : lowerStr branch == lowerStr hostname <;>
        simp [branch_allowed, h1, h2, h3]

/-- C6: `branch_allowed` returns `false` exactly when the lowercased branch
name contains `"master"` or starts with `"nd"` while differing from the
lowercased hostname; on rejection `setup` raises `NotUnderAllowedBranch` and
`start_version_control` swallows the error, returning no version control. -/
theorem C6_branch_safety (hostname branch : String) :
    (branch_allowed hostname branch = false ↔
      (contains_sub (lowerStr branch) "master" = true ∨
        (startswith (lowerStr branch) "nd" = true ∧ lowerStr branch ≠ lowerStr hostname))) ∧
    (branch_allowed hostname branch = false →
      setup_branch_check hostname branch = Except.error VCError.notUnderAllowedBranch ∧
      start_version_control (setup_branch_check hostname branch) = none) := by
  constructor
  · rw [branch_allowed_eq]
    cases h1 : contains_sub (lowerStr branch) "master" <;>
      cases h2 : startswith (lowerStr branch) "nd" <;>
        by_cases h3 : lowerStr branch = lowerStr hostname <;>
          simp [h1, h2, h3]
  · intro h
    refine ⟨by simp [setup_branch_check, h], by simp [setup_branch_check, start_version_control, h]⟩

/-- Witness for C6: a branch naming a different instrument is rejected and
the service falls back to running without version control. -/
theorem C6_branch_safety_witness :
    branch_allowed "ndxtest" "NDWOTHER" = false ∧
    setup_branch_check "ndxtest" "NDWOTHER" = Except.error VCError.notUnderAllowedBranch ∧
    start_version_control (setup_branch_check "ndxtest" "NDWOTHER") = none :=
  ⟨by decide,
    ((C6_branch_safety "ndxtest" "NDWOTHER").2 (by decide)).1,
    ((C6_branch_safety "ndxtest" "NDWOTHER").2 (by decide)).2⟩

/-! ## C7 — marker paths in `add`/`remove` -/

/-- C7 as stated is false: for a marker path that does not exist on the
filesystem, `remove` falls through to the normal branch and removes the path
from the repository index. -/
theorem C7_counterexample :
    should_ignore "rcptt_gone" = true ∧
    touches_index (remove "rcptt_gone" false false []) = true :=
  ⟨by decide, by decide⟩

/-- C7 amended: `add` silently skips marker paths; `remove` on a marker path
that exists only deletes it from the filesystem, but on a marker path that
does not exist it performs the same index removal as for ordinary paths;
non-marker paths are added to / removed from the index normally. -/
theorem C7_marker_paths (p : String) (d : Bool) (w : List String) :
    (should_ignore p = true →
      add p = [] ∧
      remove p true d w = [if d then GitOp.fsRemoveTree p else GitOp.fsRemoveFile p] ∧
      remove p false d w = [GitOp.indexRemove (if d then w else [p]) true]) ∧
    (should_ignore p = false →
      add p = [GitOp.indexAdd p] ∧
      ∀ e, remove p e d w = [GitOp.indexRemove (if d then w else [p]) true]) := by
  constructor
  · intro h
    refine ⟨by simp [add, h], ?_, by simp [remove, h]⟩
    cases d <;> simp [remove, h]
  · intro h
    exact ⟨by simp [add, h], fun e => by simp [remove, h]⟩

/-- Witness for C7 (amended) at concrete marker and non-marker paths. -/
theorem C7_marker_paths_witness :
    should_ignore "rcptt_x" = true ∧
    add "rcptt_x" = [] ∧
    remove "rcptt_x" true false [] = [GitOp.fsRemoveFile "rcptt_x"] ∧
    should_ignore "settings" = false ∧
    add "settings" = [GitOp.indexAdd "settings"] :=
  ⟨by decide,
    ((C7_marker_paths "rcptt_x" false []).1 (by decide)).1,
    by simpa using ((C7_marker_paths "rcptt_x" false []).1 (by decide)).2.1,
    by decide,
    ((C7_marker_paths "settings" false []).2 (by decide)).1⟩

/-! ## C3 — the background push loop -/

/-- Consecutive failures after the first are silent: folding failed pushes
from the dirty, already-notified state changes nothing and sleeps the retry
interval each time. -/
theorem push_run_silent_failures (m : Nat) :
    push_run
      { push_required := true, push_interval := pushRetryInterval, first_failure := false }
      (List.replicate m false) =
      ({ push_required := true, push_interval := pushRetryInterval, first_failure := false },
        0, List.replicate m pushRetryInterval) := by
  induction m with
  | zero => rfl
  | succ n ih => simp [List.replicate_succ, push_run, push_iter, ih]

/-- C3: a successful push clears the dirty flag, resets the interval to the
base value and the first-failure flag to true; a failed push sets the
interval to the fixed retry value (strictly longer than the base) whatever
the failure count, logging only on the first failure since the last success;
and every iteration sleeps the current interval, dirty or not. -/
theorem C3_push_loop (s : PushState) (n : Nat) (hn : 1 ≤ n) :
    pushBaseInterval < pushRetryInterval ∧
    (s.push_required = true →
      push_iter s true =
        ({ push_required := false, push_interval := pushBaseInterval, first_failure := true },
          false, pushBaseInterval)) ∧
    (s.push_required = false → ∀ ok, push_iter s ok = (s, false, s.push_interval)) ∧
    (∀ ok, (push_iter s ok).2.2 = (push_iter s ok).1.push_interval) ∧
    (s.push_required = true → s.first_failure = true →
      push_run s (List.replicate n false) =
        ({ push_required := true, push_interval := pushRetryInterval, first_failure := false },
          1, List.replicate n pushRetryInterval)) := by
  refine ⟨by decide, ?_, ?_, ?_, ?_⟩
  · intro h; simp [push_iter, h]
  · intro h ok; simp [push_iter, h]
  · intro ok
    by_cases h : s.push_required = true
    · cases ok <;> simp [push_iter, h]
    · simp [push_iter, h]
  · intro h1 h2
    obtain ⟨m, rfl⟩ : ∃ m, n = m + 1 := ⟨n - 1, by omega⟩
    simp [List.replicate_succ, push_run, push_iter, h1, h2, push_run_silent_failures]

/-- Witness for C3: from the dirty initial state, two consecutive failures
produce one log line and two retry-interval sleeps. -/
theorem C3_push_loop_witness :
    ((push_init true).push_required = true ∧ (push_init true).first_failure = true ∧ 1 ≤ 2) ∧
    push_run (push_init true) (List.replicate 2 false) =
      ({ push_required := true, push_interval := pushRetryInterval, first_failure := false },
        1, List.replicate 2 pushRetryInterval) :=
  ⟨⟨rfl, rfl, by decide⟩, ((C3_push_loop (push_init true) 2 (by decide)).2.2.2.2) rfl rfl⟩

/-! ## C1, C2, C9 — the write-queue worker -/

/-- On a queue of tasks whose bodies all return normally, the worker emits
exactly the per-task trace blocks in queue order, ends with an empty status
(unless it never ran a task), and no exception escapes. -/
theorem consume_ok (st : String) (ts : List QueueTask)
    (h : ∀ t ∈ ts, t.body = Except.ok ()) :
    consume_write_queue st ts =
      (traces_of ts, if ts.isEmpty then st else "", none) := by
  induction ts generalizing st with
  | nil => simp [consume_write_queue, traces_of]
  | cons t rest ih =>
    have hb : t.body = Except.ok () := h t (by simp)
    have hr : ∀ u ∈ rest, u.body = Except.ok () := fun u hu => h u (by simp [hu])
    simp [consume_write_queue, hb, ih "" hr, traces_of, task_trace]

theorem execs_of_append (l₁ l₂ : List QueueEv) :
    execs_of (l₁ ++ l₂) = execs_of l₁ ++ execs_of l₂ := by
  induction l₁ with
  | nil => rfl
  | cons e rest ih => cases e <;> simp [execs_of, ih]

theorem execs_of_traces (ts : List QueueTask) :
    execs_of (traces_of ts) = ts.map QueueTask.label := by
  induction ts with
  | nil => rfl
  | cons t rest ih => simp [traces_of, task_trace, execs_of, ih, execs_of_append]

/-- C1: the worker executes enqueued tasks in exactly enqueue order, one at a
time; while a task runs the status string equals its label (each body
invocation sits between setting the status to the label and clearing it) and
once the queue is drained the status string is empty. -/
theorem C1_write_queue_fifo (client_tasks : List QueueTask)
    (h : ∀ t ∈ client_tasks, t.body = Except.ok ()) :
    block_server_run client_tasks =
      (traces_of (initial_task :: client_tasks), "", none) ∧
    execs_of (block_server_run client_tasks).1 =
      (initial_task :: client_tasks).map QueueTask.label := by
  have hall : ∀ t ∈ initial_task :: client_tasks, t.body = Except.ok () := by
    intro t ht
    rcases List.mem_cons.mp ht with h1 | h2
    · subst h1; rfl
    · exact h t h2
  have hrun := consume_ok "INITIALISING" (initial_task :: client_tasks) hall
  constructor
  · simpa [block_server_run] using hrun
  · have h1 : (block_server_run client_tasks).1 = traces_of (initial_task :: client_tasks) := by
      simp [block_server_run, hrun]
    rw [h1, execs_of_traces]

/-- Witness for C1: one client load task runs after the initialisation task,
in order, with the status set around it and cleared at the end. -/
theorem C1_write_queue_fifo_witness :
    block_server_run [{ label := "LOADING_CONFIG", body := Except.ok () }] =
      (traces_of (initial_task :: [{ label := "LOADING_CONFIG", body := Except.ok () }]),
        "", none) :=
  (C1_write_queue_fifo [{ label := "LOADING_CONFIG", body := Except.ok () }]
    (by intro t ht; rcases List.mem_singleton.mp ht with rfl; rfl)).1

/-- C2 is false as stated: the worker loop has no exception handler, so a
raising task body escapes the worker, the following queued task is never
executed, and the status string stays at the failed task's label. -/
theorem C2_counterexample :
    (consume_write_queue ""
        [⟨"LOADING_CONFIG", Except.error "boom"⟩, ⟨"SAVING_CONFIG", Except.ok ()⟩]).2.2 =
      some "boom" ∧
    execs_of (consume_write_queue ""
        [⟨"LOADING_CONFIG", Except.error "boom"⟩, ⟨"SAVING_CONFIG", Except.ok ()⟩]).1 =
      ["LOADING_CONFIG"] ∧
    (consume_write_queue ""
        [⟨"LOADING_CONFIG", Except.error "boom"⟩, ⟨"SAVING_CONFIG", Except.ok ()⟩]).2.1 =
      "LOADING_CONFIG" :=
  ⟨rfl, rfl, rfl⟩

/-- A raising task aborts the worker: the tasks queued after it are never
invoked and the exception escapes the loop. -/
theorem consume_error_escape (t : QueueTask) (post : List QueueTask) (e : String)
    (ht : t.body = Except.error e) :
    ∀ pre : List QueueTask, (∀ u ∈ pre, u.body = Except.ok ()) →
      consume_write_queue "" (pre ++ t :: post) =
        (traces_of pre ++ [QueueEv.lock_acquire, QueueEv.set_status t.label,
          QueueEv.run_task t.label, QueueEv.lock_release], t.label, some e) := by
  intro pre
  induction pre with
  | nil => intro _; simp [consume_write_queue, ht, traces_of]
  | cons u rest ih =>
    intro hpre
    have hu : u.body = Except.ok () := hpre u (by simp)
    have hr : ∀ v ∈ rest, v.body = Except.ok () := fun v hv => hpre v (by simp [hv])
    simp [consume_write_queue, hu, ih hr, traces_of, task_trace]

/-- C2 amended: errors are caught and logged inside the task bodies that
install a handler — `load_config` wraps its entire body in `try/except`, so a
load task never raises and (per the spec's atomicity requirement on the
active-configuration manager) a failed load leaves the active configuration
unchanged — but the worker loop itself has no handler, so a task body that
does raise propagates out of the worker and the tasks behind it are never
executed. -/
theorem C2_error_handling (pre post : List QueueTask) (t : QueueTask) (e : String)
    (hpre : ∀ u ∈ pre, u.body = Except.ok ()) (ht : t.body = Except.error e)
    (inner : Except String Unit) (state : Option Configuration) (msg : String) :
    (load_config_task inner).1 = Except.ok () ∧
    load_config_task (Except.error msg) = (Except.ok (), [msg]) ∧
    active_load state (Except.error msg) = state ∧
    consume_write_queue "" (pre ++ t :: post) =
      (traces_of pre ++ [QueueEv.lock_acquire, QueueEv.set_status t.label,
        QueueEv.run_task t.label, QueueEv.lock_release], t.label, some e) := by
  refine ⟨?_, rfl, rfl, consume_error_escape t post e ht pre hpre⟩
  cases inner <;> rfl

/-- Witness for C2 (amended): a lone failing load task escapes the worker
with the status stuck at its label, while `load_config`'s own handler turns
an inner failure into a log entry. -/
theorem C2_error_handling_witness :
    load_config_task (Except.error "bad xml") = (Except.ok (), ["bad xml"]) ∧
    active_load none (Except.error "bad xml") = none ∧
    consume_write_queue "" ([] ++ (⟨"LOADING_CONFIG", Except.error "io error"⟩ : QueueTask) :: []) =
      (traces_of [] ++ [QueueEv.lock_acquire, QueueEv.set_status "LOADING_CONFIG",
        QueueEv.run_task "LOADING_CONFIG", QueueEv.lock_release], "LOADING_CONFIG",
        some "io error") := by
  have h := C2_error_handling [] [] ⟨"LOADING_CONFIG", Except.error "io error"⟩ "io error"
    (fun u hu => absurd hu (List.not_mem_nil u)) rfl (Except.error "bad xml") none "bad xml"
  exact ⟨h.2.1, h.2.2.1, h.2.2.2⟩

/-- C9 is false as stated: the worker invokes a task's body while holding the
write lock that `write_enqueue` uses. -/
theorem C9_counterexample :
    some_run_locked_from 0
      ((consume_write_queue "" [⟨"LOADING_CONFIG", Except.ok ()⟩]).1) = true := rfl

/-- Every task-body invocation in a worker trace happens with the write lock
held. -/
theorem consume_all_runs_locked (ts : List QueueTask) : ∀ st : String,
    all_runs_locked_from 0 ((consume_write_queue st ts).1) = true := by
  induction ts with
  | nil => intro st; rfl
  | cons t rest ih =>
    intro st
    cases hb : t.body with
    | ok u => cases u; simp [consume_write_queue, hb, all_runs_locked_from, ih ""]
    | error e => simp [consume_write_queue, hb, all_runs_locked_from]

/-- C9 amended: enqueuing appends the task and acknowledges immediately
without running any body, but the worker holds the write lock for the whole
of every task execution (pop, status update and body all happen inside the
lock). -/
theorem C9_enqueue_and_lock (q : List QueueTask) (t : QueueTask)
    (ts : List QueueTask) (st : String) :
    write_enqueue q t = (q ++ [t], "OK") ∧
    all_runs_locked_from 0 ((consume_write_queue st ts).1) = true :=
  ⟨rfl, consume_all_runs_locked ts st⟩

/-! ## Ordered-dictionary lemmas -/

theorem od_find_not_mem {α : Type} (k : String) : ∀ d : List (String × α),
    d.any (fun p => p.1 = k) = false → od_find d k = none := by
  intro d
  induction d with
  | nil => intro _; rfl
  | cons p rest ih =>
    intro h
    simp only [List.any_cons, Bool.or_eq_false_iff, decide_eq_false_iff_not] at h
    simp [od_find, h.1, ih h.2]

theorem od_find_append_none {α : Type} (k : String) (l : List (String × α)) :
    ∀ d : List (String × α), od_find d k = none → od_find (d ++ l) k = od_find l k := by
  intro d
  induction d with
  | nil => intro _; rfl
  | cons p rest ih =>
    intro h
    by_cases hp : p.1 = k
    · simp [od_find, hp] at h
    · simp only [List.cons_append, od_find, hp, if_false] at h ⊢
      exact ih h

theorem od_find_append_some {α : Type} (k : String) (l : List (String × α)) :
    ∀ (d : List (String × α)) (x : α), od_find d k = some x →
      od_find (d ++ l) k = some x := by
  intro d
  induction d with
  | nil => intro x h; simp [od_find] at h
  | cons p rest ih =>
    intro x h
    by_cases hp : p.1 = k
    · simp only [od_find, hp, if_true] at h
      simp [od_find, hp, h]
    · simp only [od_find, hp, if_false] at h
      simp only [List.cons_append, od_find, hp, if_false]
      exact ih x h

theorem od_find_map_replace {α : Type} (k : String) (v : α) :
    ∀ d : List (String × α), d.any (fun p => p.1 = k) = true →
      od_find (d.map (fun p => if p.1 = k then (k, v) else p)) k = some v := by
  intro d
  induction d with
  | nil => intro h; simp at h
  | cons p rest ih =>
    intro h
    by_cases hp : p.1 = k
    · simp [od_find, hp]
    · simp only [List.any_cons, Bool.or_eq_true, decide_eq_true_eq] at h
      rcases h with h | h
      · exact absurd h hp
      · simp [od_find, hp, ih h]

theorem od_find_map_replace_ne {α : Type} (k k' : String) (v : α) (h : k' ≠ k) :
    ∀ d : List (String × α),
      od_find (d.map (fun p => if p.1 = k' then (k', v) else p)) k = od_find d k := by
  intro d
  induction d with
  | nil => rfl
  | cons p rest ih =>
    by_cases hp : p.1 = k'
    · have hk : ¬ p.1 = k := by rw [hp]; exact h
      simp [od_find, hp, h, hk, ih]
    · simp only [List.map_cons, hp, if_false, od_find, ih]

theorem od_find_set_self {α : Type} (d : List (String × α)) (k : String) (v : α) :
    od_find (od_set d k v) k = some v := by
  by_cases h : d.any (fun p => p.1 = k) = true
  · simp only [od_set, h, if_true]
    exact od_find_map_replace k v d h
  · have h' : d.any (fun p => p.1 = k) = false := by
      cases hb : d.any (fun p => p.1 = k) with
      | false => rfl
      | true => exact absurd hb h
    simp only [od_set, h', Bool.false_eq_true, if_false]
    rw [od_find_append_none k _ d (od_find_not_mem k d h')]
    simp [od_find]

theorem od_find_set_ne {α : Type} (d : List (String × α)) (k k' : String) (v : α)
    (h : k' ≠ k) : od_find (od_set d k' v) k = od_find d k := by
  by_cases ha : d.any (fun p => p.1 = k') = true
  · simp only [od_set, ha, if_true]
    exact od_find_map_replace_ne k k' v h d
  · have ha' : d.any (fun p => p.1 = k') = false := by
      cases hb : d.any (fun p => p.1 = k') with
      | false => rfl
      | true => exact absurd hb ha
    simp only [od_set, ha', Bool.false_eq_true, if_false]
    cases hf : od_find d k with
    | none =>
      rw [od_find_append_none k _ d hf]
      simp [od_find, h]
    | some x => exact od_find_append_some k _ d x hf

/-! ## C4 — load errors and missing entity files -/

/-- C4: `load_config` fails with the configuration-not-found error exactly
when the configuration's directory is absent; with the directory present the
load succeeds, and each absent entity file yields an empty collection of that
kind (the `NONE` group only, for the group dictionary) or default metadata. -/
theorem C4_load_missing_files (name : String) (fs : ConfigDirContents) :
    (load_config name fs = Except.error (ConfigError.notFound name) ↔
      fs.dir_present = false) ∧
    (fs.dir_present = true → ∃ c, load_config name fs = Except.ok c) ∧
    (∀ c, load_config name fs = Except.ok c →
      (fs.blocks_file = none → c.blocks = []) ∧
      (fs.blocks_file = none → fs.groups_file = none →
        c.groups = [(lowerStr GRP_NONE, { name := GRP_NONE })]) ∧
      (fs.iocs_file = none → c.iocs = []) ∧
      (fs.subconfigs_file = none → c.subconfigs = []) ∧
      (fs.meta_file = none → c.meta = { name := name })) := by
  refine ⟨?_, ?_, ?_⟩
  · cases hd : fs.dir_present <;> simp [load_config, hd]
  · intro hd
    cases hres : load_config name fs with
    | ok c => exact ⟨c, rfl⟩
    | error err => simp [load_config, hd] at hres
  · intro c hc
    cases hd : fs.dir_present
    · simp [load_config, hd] at hc
    · simp only [load_config, hd, Bool.not_true, Bool.false_eq_true, if_false,
        Except.ok.injEq] at hc
      subst hc
      refine ⟨?_, ?_, ?_, ?_, ?_⟩
      · intro h; simp [h]
      · intro h1 h2; simp [h1, h2, od_set]
      · intro h; simp [h]
      · intro h; simp [h]
      · intro h; simp [h]

/-- Witness for C4: a present directory with all five files absent loads
successfully into the blank configuration with only the `NONE` group. -/
theorem C4_load_missing_files_witness :
    load_config "demo"
      { dir_present := true, blocks_file := none, groups_file := none,
        iocs_file := none, subconfigs_file := none, meta_file := none } =
      Except.ok
        { blocks := [], groups := [(lowerStr GRP_NONE, { name := GRP_NONE })],
          iocs := [], subconfigs := [], meta := { name := "demo" } } ∧
    (load_config "demo" (ConfigDirContents.mk true none none none none none) =
      Except.error (ConfigError.notFound "demo") ↔
        (ConfigDirContents.mk true none none none none none).dir_present = false) :=
  ⟨by rfl, (C4_load_missing_files "demo" _).1⟩

/-! ## C5 — the NONE-group invariant -/

/-- Spec-modelled group insertions never displace the distinguished group
stored under the lowercased `NONE` key: they only overwrite it with a group
whose own lowercased name is that key. -/
theorem od_set_all_keeps_none (gs : List Group) :
    ∀ d : List (String × Group),
      (∃ g, od_find d (lowerStr GRP_NONE) = some g ∧ lowerStr g.name = lowerStr GRP_NONE) →
      ∃ g, od_find (od_set_all d (gs.map (fun g => (lowerStr g.name, g))))
          (lowerStr GRP_NONE) = some g ∧ lowerStr g.name = lowerStr GRP_NONE := by
  induction gs with
  | nil => intro d h; simpa [od_set_all] using h
  | cons g rest ih =>
    intro d h
    have step : ∃ g', od_find (od_set d (lowerStr g.name) g) (lowerStr GRP_NONE) = some g' ∧
        lowerStr g'.name = lowerStr GRP_NONE := by
      by_cases hk : lowerStr g.name = lowerStr GRP_NONE
      · refine ⟨g, ?_, hk⟩
        rw [← hk]
        exact od_find_set_self d _ g
      · obtain ⟨g0, hg0, hn0⟩ := h
        refine ⟨g0, ?_, hn0⟩
        rw [od_find_set_ne d _ _ g hk]
        exact hg0
    have hfold : od_set_all d ((g :: rest).map (fun g => (lowerStr g.name, g))) =
        od_set_all (od_set d (lowerStr g.name) g)
          (rest.map (fun g => (lowerStr g.name, g))) := by
      simp [od_set_all]
    rw [hfold]
    exact ih _ step

/-- C5: every configuration produced by `load_config` contains the
distinguished `NONE` group, whatever files the directory holds. -/
theorem C5_none_group (name : String) (fs : ConfigDirContents) (c : Configuration)
    (h : load_config name fs = Except.ok c) :
    ∃ g, od_find c.groups (lowerStr GRP_NONE) = some g ∧
      lowerStr g.name = lowerStr GRP_NONE := by
  cases hd : fs.dir_present
  · simp [load_config, hd] at h
  · simp only [load_config, hd, Bool.not_true, Bool.false_eq_true, if_false,
      Except.ok.injEq] at h
    subst h
    have base : ∃ g, od_find (od_set ([] : List (String × Group)) (lowerStr GRP_NONE)
        { name := GRP_NONE }) (lowerStr GRP_NONE) = some g ∧
        lowerStr g.name = lowerStr GRP_NONE :=
      ⟨{ name := GRP_NONE }, od_find_set_self _ _ _, rfl⟩
    have after_blocks : ∃ g, od_find
        (match fs.blocks_file with
          | none => (([] : List (String × Block)),
              od_set ([] : List (String × Group)) (lowerStr GRP_NONE) { name := GRP_NONE })
          | some parsed => blocks_from_xml []
              (od_set [] (lowerStr GRP_NONE) { name := GRP_NONE }) parsed).2
        (lowerStr GRP_NONE) = some g ∧ lowerStr g.name = lowerStr GRP_NONE := by
      cases hbf : fs.blocks_file with
      | none => exact base
      | some parsed => exact od_set_all_keeps_none parsed.2 _ base
    cases hgf : fs.groups_file with
    | none => simpa [hgf] using after_blocks
    | some parsed =>
      simp only [hgf]
      exact od_set_all_keeps_none parsed _ after_blocks

/-- Witness for C5: a directory whose groups file overrides the `NONE` entry
still loads to a configuration holding a group under the `NONE` key. -/
theorem C5_none_group_witness :
    od_find
      (Configuration.mk []
        [(lowerStr GRP_NONE, { name := "None", blocks := ["b1"] })] [] []
        { name := "demo" }).groups (lowerStr GRP_NONE) ≠ none := by
  have h := C5_none_group "demo"
    { dir_present := true, blocks_file := none,
      groups_file := some [{ name := "None", blocks := ["b1"] }],
      iocs_file := none, subconfigs_file := none, meta_file := none }
    (Configuration.mk []
      [(lowerStr GRP_NONE, { name := "None", blocks := ["b1"] })] [] []
      { name := "demo" }) rfl
  obtain ⟨g, hg, _⟩ := h
  simp [hg]

/-! ## C8 — watcher validity check -/

/-- C8: `_check_valid` raises the not-a-configuration-file error exactly when
the event path splits into fewer than two segments below the watched root;
for deeper paths a failed reload is caught (no configuration is produced) and
the event delivery leaves the catalog unchanged. -/
theorem C8_watcher_validity (root path : String) (lr : Except String Configuration)
    (cat : List (String × Configuration)) :
    (check_valid root path lr =
        Except.error (WatcherError.notConfigFile "File in root directory") ↔
      (split_config_path root path).length < 2) ∧
    (2 ≤ (split_config_path root path).length → ∀ e, lr = Except.error e →
      check_valid root path lr = Except.ok none ∧
      handle_fs_event root path lr cat = cat) := by
  constructor
  · constructor
    · intro h
      by_contra hlen
      have hb : check_file_at_root root path = false := by
        simp [check_file_at_root]
        omega
      cases lr <;> simp [check_valid, hb] at h
    · intro h
      have hb : check_file_at_root root path = true := by
        simp [check_file_at_root, h]
      simp [check_valid, hb]
  · intro hlen e hlr
    have hb : check_file_at_root root path = false := by
      simp [check_file_at_root]
      omega
    subst hlr
    exact ⟨by simp [check_valid, hb], by simp [handle_fs_event, check_valid, hb]⟩

/-- Witness for C8: an event for a file inside a configuration subdirectory
whose reload fails is caught, and the catalog entry survives untouched. -/
theorem C8_watcher_validity_witness :
    check_valid "\\configs" "\\configs\\cfg1\\blocks.xml" (Except.error "schema fail") =
      Except.ok none ∧
    handle_fs_event "\\configs" "\\configs\\cfg1\\blocks.xml" (Except.error "schema fail")
      [("cfg1", Configuration.mk [] [] [] [] { name := "cfg1" })] =
      [("cfg1", Configuration.mk [] [] [] [] { name := "cfg1" })] :=
  (C8_watcher_validity "\\configs" "\\configs\\cfg1\\blocks.xml" (Except.error "schema fail")
    [("cfg1", Configuration.mk [] [] [] [] { name := "cfg1" })]).2
    (by decide) "schema fail" rfl

end InstServers
